import Mathlib

/-!
Shallow embedding of `application.py` (Flask fake-news classifier service).

The embedding models:
* the module-level artifact store (`_loaded_model`, `_vectorizer`) as a `Store`;
* `_load_artifacts_once` as a state transformer `loadArtifactsOnce`, instrumented
  with flags recording whether the call acquired the lock, entered the
  deserialize block, and executed each handle assignment;
* `_predict_text` as `predictText`;
* the route handlers `health`, `demo`, `predict_form` (`predictForm`) and
  `predict_json` (`predictJson`);
* the double-checked-locking protocol of `_load_artifacts_once` as an explicit
  interleaving machine `CStep` over per-thread program counters, for the
  concurrency claims.

Filesystem / pickle behaviour is the environment: an `Env` gives the outcome of
`pickle.load(open(MODEL_PATH))` and `pickle.load(open(VECTORIZER_PATH))`.
Python exception kinds that the handlers distinguish are modelled by `PyExc`:
`open` on a missing path raises `FileNotFoundError` (`fileNotFound`), `open` on
a present but unreadable path raises `PermissionError` (`permissionDenied`,
which is *not* a `FileNotFoundError`), and `pickle.load` on malformed content
raises an `UnpicklingError`-style error (`badPickle`).
-/

namespace FakeNewsApp

/-- Python `str.isspace` characters relevant to `str.strip()` (ASCII range):
space, tab, newline, carriage return, vertical tab, form feed. -/
def pyIsSpace (c : Char) : Bool :=
  c = ' ' || c = '\t' || c = '\n' || c = '\r' || c = Char.ofNat 11 || c = Char.ofNat 12

/-- Python `s.strip()`: remove leading and trailing whitespace. -/
def pyStrip (s : String) : String :=
  String.mk (((s.toList.dropWhile pyIsSpace).reverse.dropWhile pyIsSpace).reverse)

/-- Scalar JSON values as Python objects (the values a JSON body's `message`
field may hold that the claims exercise: strings, integers, booleans, null). -/
inductive JVal where
  | jstr (s : String)
  | jint (n : Int)
  | jbool (b : Bool)
  | jnull
deriving DecidableEq

/-- Python `str(·)` on the deserialized JSON value: `str(None) = "None"`,
`str(True) = "True"`, `str(False) = "False"`, integers print in decimal. -/
def pyStr : JVal → String
  | .jstr s => s
  | .jint n => toString n
  | .jbool true => "True"
  | .jbool false => "False"
  | .jnull => "None"

/-- Python exception kinds distinguished (or not) by the handlers.
`except FileNotFoundError` in the source catches only `fileNotFound`;
`PermissionError` and unpickling errors fall through to `except Exception`. -/
inductive PyExc where
  | fileNotFound
  | permissionDenied
  | badPickle
  | otherError
deriving DecidableEq

/-- The raw prediction value `pred[0]` as a duck-typed Python object:
whether it has an `item()` method, the string form of `item()`'s result,
and the string form of the object itself. -/
structure PyObj where
  hasItem : Bool
  itemStr : String
  selfStr : String
deriving DecidableEq

/-- Lines 53-55 of the source: `val = pred[0]`;
`val_py = val.item() if hasattr(val, "item") else val`; `return str(val_py)`. -/
def rawLabel (val : PyObj) : String :=
  if val.hasItem then val.itemStr else val.selfStr

/-- The deserialized vectorizer: `transform` takes a list of strings
(the source calls `_vectorizer.transform([message])`) and may raise. -/
def Vectorizer (Feat : Type) := List String → Except PyExc Feat

/-- The deserialized model: `predict` takes the feature representation and
returns the list of predictions (the source indexes `pred[0]`), or raises. -/
def Model (Feat : Type) := Feat → Except PyExc (List PyObj)

/-- The filesystem/pickle environment at the time of a call: the outcome of
deserializing `MODEL_PATH` and of deserializing `VECTORIZER_PATH`. -/
structure Env (Feat : Type) where
  loadModel : Except PyExc (Model Feat)
  loadVectorizer : Except PyExc (Vectorizer Feat)

/-- The module-level artifact store: globals `_loaded_model` and `_vectorizer`
(lines 26-27), each `None` or a deserialized object. -/
structure Store (Feat : Type) where
  loadedModel : Option (Model Feat)
  vectorizer : Option (Vectorizer Feat)

/-- Process-start state: `_loaded_model = None`, `_vectorizer = None`. -/
def initStore (Feat : Type) : Store Feat := ⟨none, none⟩

/-- Spec's `is_loaded()`: the expression
`_loaded_model is not None and _vectorizer is not None`
inlined at lines 200, 210, 223 and 249 of the source. -/
def isLoaded (st : Store Feat) : Bool :=
  st.loadedModel.isSome && st.vectorizer.isSome

/-- Result of one sequential call of `_load_artifacts_once`: the store on
return, the exception propagated (if any), and instrumentation flags recording
whether the call acquired `_artifact_lock`, entered the file-read-and-
deserialize block (lines 38-44), and executed each handle assignment. -/
structure LoadResult (Feat : Type) where
  store : Store Feat
  error : Option PyExc
  acquiredLock : Bool
  deserialized : Bool
  modelAssigned : Bool
  vecAssigned : Bool

/-- Sequential semantics of `_load_artifacts_once` (lines 31-44).
Fast path: if both handles are set, return at once (line 34).
Otherwise take the lock, re-check (line 37), and if a handle is still unset,
assign `_loaded_model` from `MODEL_PATH` and then `_vectorizer` from
`VECTORIZER_PATH`; an exception from the second read propagates *after* the
first assignment already happened, so the model handle stays set. -/
def loadArtifactsOnce (env : Env Feat) (st : Store Feat) : LoadResult Feat :=
  if st.loadedModel.isSome && st.vectorizer.isSome then
    ⟨st, none, false, false, false, false⟩
  else if st.loadedModel.isNone || st.vectorizer.isNone then
    match env.loadModel with
    | .error e => ⟨st, some e, true, true, false, false⟩
    | .ok m =>
      match env.loadVectorizer with
      | .error e => ⟨⟨some m, st.vectorizer⟩, some e, true, true, true, false⟩
      | .ok v => ⟨⟨some m, some v⟩, none, true, true, true, true⟩
  else
    -- Inner re-check found both handles set (only possible under interleaving;
    -- dead in this sequential semantics): release the lock and return.
    ⟨st, none, true, false, false, false⟩

/-- Lines 50-55 of `_predict_text`, given the store after `_load_artifacts_once`
returned normally: `X = _vectorizer.transform([message])`;
`pred = _loaded_model.predict(X)`; `val = pred[0]`; normalize and stringify.
A `None` handle would raise `AttributeError` and `pred[0]` of an empty
sequence `IndexError`; both are generic exceptions (`otherError`). -/
def predictPure (st : Store Feat) (message : String) : Except PyExc String :=
  match st.vectorizer with
  | none => .error .otherError
  | some vec =>
    match vec [message] with
    | .error e => .error e
    | .ok X =>
      match st.loadedModel with
      | none => .error .otherError
      | some model =>
        match model X with
        | .error e => .error e
        | .ok [] => .error .otherError
        | .ok (val :: _) => .ok (rawLabel val)

/-- `_predict_text` (lines 47-55): run `_load_artifacts_once`, propagating its
exception, then run inference against the (now current) store. -/
def predictText (env : Env Feat) (st : Store Feat) (message : String) :
    Except PyExc String × Store Feat :=
  let r := loadArtifactsOnce env st
  match r.error with
  | some e => (.error e, r.store)
  | none => (predictPure r.store message, r.store)

/-- Process-wide configuration resolved at startup (lines 16-18). -/
structure Config where
  modelPath : String
  vectorizerPath : String

/-- JSON body of the health endpoint's response (lines 198-203). -/
structure HealthBody where
  status : String
  model_loaded : Bool
  model_path : String
  vectorizer_path : String
deriving DecidableEq

/-- GET `/` (lines 196-203): constant-shape JSON and status 200, total in the
store state. -/
def health (cfg : Config) (st : Store Feat) : HealthBody × Nat :=
  (⟨"ok", st.loadedModel.isSome && st.vectorizer.isSome,
    cfg.modelPath, cfg.vectorizerPath⟩, 200)

/-- Arguments passed to `render_template_string` by the demo/form endpoints
(the observable content of the rendered page), plus nothing else. -/
structure FormPage where
  model_loaded : Bool
  model_path : String
  prediction : Option String
  errorMsg : Option String
deriving DecidableEq

/-- GET `/demo` (lines 206-214): renders the page with no prediction and no
error; status 200; the store is not touched. -/
def demo (cfg : Config) (st : Store Feat) : (FormPage × Nat) × Store Feat :=
  ((⟨st.loadedModel.isSome && st.vectorizer.isSome, cfg.modelPath, none, none⟩, 200), st)

/-- Line 219: `(request.form.get("message") or "").strip()`. -/
def formMessage (form : List (String × String)) : String :=
  pyStrip ((form.lookup "message").getD "")

/-- POST `/predict-form` (lines 217-253). -/
def predictForm (cfg : Config) (env : Env Feat) (st : Store Feat)
    (form : List (String × String)) : (FormPage × Nat) × Store Feat :=
  let message := formMessage form
  if message = "" then
    ((⟨st.loadedModel.isSome && st.vectorizer.isSome, cfg.modelPath, none,
       some "Field 'message' is required and must be non-empty."⟩, 400), st)
  else
    match predictText env st message with
    | (.ok lbl, st') =>
      ((⟨true, cfg.modelPath, some lbl, none⟩, 200), st')
    | (.error .fileNotFound, st') =>
      ((⟨false, cfg.modelPath, none, some "Model artifacts not found on server."⟩, 503), st')
    | (.error _, st') =>
      ((⟨st'.loadedModel.isSome && st'.vectorizer.isSome, cfg.modelPath, none,
         some "Inference failed."⟩, 500), st')

/-- JSON responses of POST `/predict`: `{"label": ...}` or `{"error": ...}`. -/
inductive JsonBody where
  | label (s : String)
  | error (s : String)
deriving DecidableEq

/-- Lines 258-259: `data = request.get_json(silent=True) or {}` followed by
`str(data.get("message", "")).strip()`. `none` stands for a missing,
non-JSON or JSON-falsy body, which `or {}` replaces by the empty dict. -/
def jsonMessage (body : Option (List (String × JVal))) : String :=
  pyStrip (pyStr (((body.getD []).lookup "message").getD (.jstr "")))

/-- POST `/predict` (lines 256-269). -/
def predictJson (env : Env Feat) (st : Store Feat)
    (body : Option (List (String × JVal))) : (JsonBody × Nat) × Store Feat :=
  let message := jsonMessage body
  if message = "" then
    ((.error "Field 'message' is required and must be non-empty.", 400), st)
  else
    match predictText env st message with
    | (.ok lbl, st') => ((.label lbl, 200), st')
    | (.error .fileNotFound, st') =>
      ((.error "Model artifacts not found on server.", 503), st')
    | (.error _, st') => ((.error "Inference failed.", 500), st')

/-- Operations of the process that can touch the artifact store: the
background warm-up / any `ensure_loaded` call, a direct `_predict_text`
call, and the four HTTP handlers. -/
inductive Op (Feat : Type) where
  | ensure (env : Env Feat)
  | predict (env : Env Feat) (message : String)
  | json (env : Env Feat) (body : Option (List (String × JVal)))
  | form (cfg : Config) (env : Env Feat) (data : List (String × String))
  | getHealth
  | getDemo

/-- State effect of one operation on the artifact store. -/
def applyOp : Op Feat → Store Feat → Store Feat
  | .ensure env, st => (loadArtifactsOnce env st).store
  | .predict env msg, st => (predictText env st msg).2
  | .json env body, st => (predictJson env st body).2
  | .form cfg env data, st => (predictForm cfg env st data).2
  | .getHealth, st => st
  | .getDemo, st => st

/-- State effect of a sequence of operations. -/
def applyOps : List (Op Feat) → Store Feat → Store Feat
  | [], st => st
  | op :: ops, st => applyOps ops (applyOp op st)

/-- Reachability invariant of the store: the vectorizer handle is set only
after the model handle (lines 40-43 assign the model first and nothing
unsets it). -/
def StoreInv (st : Store Feat) : Prop :=
  st.vectorizer.isSome = true → st.loadedModel.isSome = true

/-- An environment in which both artifact loads succeed. -/
def EnvOk (env : Env Feat) : Prop :=
  (∃ m, env.loadModel = .ok m) ∧ (∃ v, env.loadVectorizer = .ok v)

/- Concrete instances used by witnesses and counterexamples. -/

/-- A vectorizer whose `transform` always succeeds. -/
def vecGood : Vectorizer Nat := fun _ => .ok 7

/-- A model predicting a boxed numpy-style scalar: `hasattr(val, "item")`,
`str(val.item()) = "1"`, `str(val) = "1"`. -/
def modelGood : Model Nat := fun _ => .ok [⟨true, "1", "1"⟩]

/-- A model predicting a plain value without `item()`: `str(val) = "2"`. -/
def modelPlain : Model Nat := fun _ => .ok [⟨false, "", "2"⟩]

/-- Environment where both loads succeed. -/
def envGood : Env Nat := ⟨.ok modelGood, .ok vecGood⟩

/-- Environment where both loads succeed, yielding the plain-valued model. -/
def envPlain : Env Nat := ⟨.ok modelPlain, .ok vecGood⟩

/-- Environment where the model deserializes but the vectorizer path is
missing (`open(VECTORIZER_PATH)` raises `FileNotFoundError`). -/
def envVecMissing : Env Nat := ⟨.ok modelGood, .error .fileNotFound⟩

/-- Environment where the model deserializes but the vectorizer file is
malformed (`pickle.load` raises an unpickling error). -/
def envVecBad : Env Nat := ⟨.ok modelPlain, .error .badPickle⟩

/-- Environment where `MODEL_PATH` exists but is unreadable:
`open(MODEL_PATH)` raises `PermissionError`, not `FileNotFoundError`. -/
def envUnreadable : Env Nat := ⟨.error .permissionDenied, .ok vecGood⟩

/-- Environment where `MODEL_PATH` is missing. -/
def envModelMissing : Env Nat := ⟨.error .fileNotFound, .ok vecGood⟩

/-- A store holding both artifacts. -/
def storeLoaded : Store Nat := ⟨some modelGood, some vecGood⟩

/-- Default configuration values (lines 16-18, without env overrides). -/
def cfg0 : Config := ⟨"basic_classifier.pkl", "count_vectorizer.pkl"⟩

/-!
### Interleaving machine for `_load_artifacts_once` under concurrency

`n` threads (request handlers plus the background warm-up thread) each run one
call of `_load_artifacts_once` against the shared globals, in the successful
environment where deserializing yields `m` and `v`. Program counters follow the
source line by line; the two reads of the fast-path check (line 34) are separate
steps because they happen outside the lock, while the re-check under the lock
(line 37) is a single step (all writers hold the lock, so its two reads cannot
be interleaved with a write). `loads` counts executions of the
file-read-and-deserialize block (lines 38-44).
-/

/-- Program counter of one thread inside `_load_artifacts_once`. -/
inductive PC where
  | start      -- about to read `_loaded_model` in the fast-path check (line 34)
  | checkVec   -- fast path saw a model; about to read `_vectorizer` (line 34)
  | waiting    -- fast check failed; blocked on `_artifact_lock` (line 36)
  | critCheck  -- holds the lock; about to run the re-check (line 37)
  | setModel   -- re-check passed; about to read and assign `_loaded_model` (lines 40-41)
  | setVec     -- about to read and assign `_vectorizer` (lines 42-43)
  | unlock     -- about to release the lock (end of the `with` block)
  | finished   -- returned
deriving DecidableEq

/-- Shared state plus per-thread program counters and the load counter. -/
structure CState (n : Nat) (M V : Type) where
  model : Option M
  vec : Option V
  lock : Option (Fin n)
  pc : Fin n → PC
  loads : Nat

/-- All threads at the call entry, nothing loaded, lock free. -/
def initCState (n : Nat) (M V : Type) : CState n M V :=
  ⟨none, none, none, fun _ => .start, 0⟩

/-- Update one thread's program counter. -/
def setPC (pcs : Fin n → PC) (i : Fin n) (p : PC) : Fin n → PC :=
  fun j => if j = i then p else pcs j

/-- One interleaving step: some thread executes its next atomic action of
`_load_artifacts_once` in the environment where the model deserializes to `m`
and the vectorizer to `v`. -/
inductive CStep {n : Nat} {M V : Type} (m : M) (v : V) :
    CState n M V → CState n M V → Prop where
  | fastModelNone (s : CState n M V) (i : Fin n)
      (hpc : s.pc i = .start) (hm : s.model = none) :
      CStep m v s { s with pc := setPC s.pc i .waiting }
  | fastModelSome (s : CState n M V) (i : Fin n)
      (hpc : s.pc i = .start) (hm : s.model.isSome = true) :
      CStep m v s { s with pc := setPC s.pc i .checkVec }
  | fastVecNone (s : CState n M V) (i : Fin n)
      (hpc : s.pc i = .checkVec) (hv : s.vec = none) :
      CStep m v s { s with pc := setPC s.pc i .waiting }
  | fastVecSome (s : CState n M V) (i : Fin n)
      (hpc : s.pc i = .checkVec) (hv : s.vec.isSome = true) :
      CStep m v s { s with pc := setPC s.pc i .finished }
  | acquire (s : CState n M V) (i : Fin n)
      (hpc : s.pc i = .waiting) (hl : s.lock = none) :
      CStep m v s { s with lock := some i, pc := setPC s.pc i .critCheck }
  | innerTrue (s : CState n M V) (i : Fin n)
      (hpc : s.pc i = .critCheck) (hmv : s.model = none ∨ s.vec = none) :
      CStep m v s { s with pc := setPC s.pc i .setModel, loads := s.loads + 1 }
  | innerFalse (s : CState n M V) (i : Fin n)
      (hpc : s.pc i = .critCheck)
      (hm : s.model.isSome = true) (hv : s.vec.isSome = true) :
      CStep m v s { s with lock := none, pc := setPC s.pc i .finished }
  | stepSetModel (s : CState n M V) (i : Fin n) (hpc : s.pc i = .setModel) :
      CStep m v s { s with model := some m, pc := setPC s.pc i .setVec }
  | stepSetVec (s : CState n M V) (i : Fin n) (hpc : s.pc i = .setVec) :
      CStep m v s { s with vec := some v, pc := setPC s.pc i .unlock }
  | stepUnlock (s : CState n M V) (i : Fin n) (hpc : s.pc i = .unlock) :
      CStep m v s { s with lock := none, pc := setPC s.pc i .finished }

/-- Reachability of the interleaving machine. -/
def ReachableC {n : Nat} {M V : Type} (m : M) (v : V) :
    CState n M V → CState n M V → Prop :=
  Relation.ReflTransGen (CStep m v)

/-- Program counters inside the lock-protected region. -/
def inCrit : PC → Bool
  | .critCheck => true
  | .setModel => true
  | .setVec => true
  | .unlock => true
  | _ => false

/-- Global invariant of the machine: mutual exclusion, lock/pc consistency,
write order of the handles, and the exactly-once accounting of `loads`. -/
structure CInv {n : Nat} {M V : Type} (m : M) (v : V) (s : CState n M V) : Prop where
  mutex : ∀ i j : Fin n, inCrit (s.pc i) = true → inCrit (s.pc j) = true → i = j
  lockSome : ∀ i : Fin n, s.lock = some i → inCrit (s.pc i) = true
  lockNone : s.lock = none → ∀ i : Fin n, inCrit (s.pc i) = false
  modelVal : s.model = none ∨ s.model = some m
  vecVal : s.vec = none ∨ s.vec = some v
  vecModel : s.vec.isSome = true → s.model.isSome = true
  pcSetVec : ∀ i : Fin n, s.pc i = .setVec → s.model.isSome = true
  pcUnlock : ∀ i : Fin n, s.pc i = .unlock → s.model.isSome = true ∧ s.vec.isSome = true
  pcFin : ∀ i : Fin n, s.pc i = .finished → s.model.isSome = true ∧ s.vec.isSome = true
  loadsLe : s.loads ≤ 1
  loadsIff : s.loads = 1 ↔ (s.model.isSome = true ∨ ∃ i : Fin n, s.pc i = .setModel)
  partialVec : s.model.isSome = true → s.vec = none → ∃ i : Fin n, s.pc i = .setVec
  setModelNone : ∀ i : Fin n, s.pc i = .setModel → s.model = none ∧ s.vec = none

/-- Final state of the single-thread witness trace: one thread runs
`_load_artifacts_once` to completion from the initial state. -/
def cTraceFinal : CState 1 Nat Nat :=
  ⟨some 0, some 0, none,
    setPC (setPC (setPC (setPC (setPC (setPC (fun _ => .start) 0 .waiting) 0 .critCheck)
      0 .setModel) 0 .setVec) 0 .unlock) 0 .finished, 1⟩

/-! ### Helper lemmas: the sequential loader and the handlers -/

/-- Case-split form of `loadArtifactsOnce`: either the fast path fires, or the
two loads run in order with the model handle assigned before the vectorizer
read is attempted. -/
theorem loadArtifactsOnce_eq {Feat : Type} (env : Env Feat) (st : Store Feat) :
    loadArtifactsOnce env st =
      if isLoaded st = true then ⟨st, none, false, false, false, false⟩
      else
        match env.loadModel with
        | .error e => ⟨st, some e, true, true, false, false⟩
        | .ok m =>
          match env.loadVectorizer with
          | .error e => ⟨⟨some m, st.vectorizer⟩, some e, true, true, true, false⟩
          | .ok v => ⟨⟨some m, some v⟩, none, true, true, true, true⟩ := by
  obtain ⟨om, ov⟩ := st
  cases om <;> cases ov <;> rfl

/-- The fast path: both handles set means the call is a no-op that does not
take the lock. -/
theorem load_fast {Feat : Type} (env : Env Feat) (st : Store Feat)
    (h : isLoaded st = true) :
    loadArtifactsOnce env st = ⟨st, none, false, false, false, false⟩ := by
  rw [loadArtifactsOnce_eq, if_pos h]

/-- In a reachable store that is not fully loaded, the vectorizer handle is
unset. -/
theorem not_loaded_vec_none {Feat : Type} {st : Store Feat} (hinv : StoreInv st)
    (h : ¬ isLoaded st = true) : st.vectorizer = none := by
  cases hv : st.vectorizer with
  | none => rfl
  | some v =>
    have hm : st.loadedModel.isSome = true := hinv (by rw [hv]; rfl)
    exact absurd (by simp [isLoaded, hm, hv]) h

/-- A call that returns without an exception leaves both handles set. -/
theorem load_error_none_loaded {Feat : Type} (env : Env Feat) (st : Store Feat)
    (h : (loadArtifactsOnce env st).error = none) :
    isLoaded (loadArtifactsOnce env st).store = true := by
  rw [loadArtifactsOnce_eq] at h ⊢
  by_cases hld : isLoaded st = true
  · rw [if_pos hld]
    exact hld
  · rw [if_neg hld] at h ⊢
    cases hm : env.loadModel with
    | error e => rw [hm] at h; simp at h
    | ok m =>
      cases hv : env.loadVectorizer with
      | error e => rw [hm, hv] at h; simp at h
      | ok v => rfl

/-- `StoreInv` is preserved by the loader. -/
theorem storeInv_load {Feat : Type} (env : Env Feat) (st : Store Feat)
    (hinv : StoreInv st) : StoreInv (loadArtifactsOnce env st).store := by
  rw [loadArtifactsOnce_eq]
  by_cases hld : isLoaded st = true
  · rw [if_pos hld]; exact hinv
  · rw [if_neg hld]
    cases hm : env.loadModel with
    | error e => exact hinv
    | ok m =>
      cases hv : env.loadVectorizer with
      | error e => intro _; rfl
      | ok v => intro _; rfl

/-- A call that propagates an exception leaves the vectorizer handle unset
(though the model handle may have been assigned). -/
theorem load_error_vec_none {Feat : Type} (env : Env Feat) (st : Store Feat)
    (hinv : StoreInv st) (he : (loadArtifactsOnce env st).error.isSome = true) :
    (loadArtifactsOnce env st).store.vectorizer = none := by
  rw [loadArtifactsOnce_eq] at he ⊢
  by_cases hld : isLoaded st = true
  · rw [if_pos hld] at he; simp at he
  · have hv := not_loaded_vec_none hinv hld
    rw [if_neg hld] at he ⊢
    cases hm : env.loadModel with
    | error e => exact hv
    | ok m =>
      cases hv2 : env.loadVectorizer with
      | error e => exact hv
      | ok v => rw [hm, hv2] at he; simp at he

/-- `_predict_text` on a loaded store: the ensure step is the fast path and the
store is untouched. -/
theorem predictText_loaded {Feat : Type} (env : Env Feat) (st : Store Feat)
    (msg : String) (h : isLoaded st = true) :
    predictText env st msg = (predictPure st msg, st) := by
  simp [predictText, load_fast env st h]

/-- `_predict_text` propagates the loader's exception together with the
loader's (possibly partially written) store. -/
theorem predictText_error {Feat : Type} {env : Env Feat} {st : Store Feat}
    {e : PyExc} (msg : String) (he : (loadArtifactsOnce env st).error = some e) :
    predictText env st msg = (.error e, (loadArtifactsOnce env st).store) := by
  simp [predictText, he]

/-- Inversion: a successful `_predict_text` returns the loader's store, which
is fully loaded, and its label comes from `predictPure` on that store. -/
theorem predictText_ok {Feat : Type} {env : Env Feat} {st st' : Store Feat}
    {msg l : String} (h : predictText env st msg = (.ok l, st')) :
    isLoaded st' = true ∧ predictPure st' msg = .ok l ∧
      st' = (loadArtifactsOnce env st).store := by
  simp only [predictText] at h
  cases herr : (loadArtifactsOnce env st).error with
  | some e => rw [herr] at h; simp at h
  | none =>
    rw [herr] at h
    simp only [Prod.mk.injEq] at h
    obtain ⟨h1, h2⟩ := h
    refine ⟨?_, ?_, h2.symm⟩
    · rw [← h2]; exact load_error_none_loaded env st herr
    · rw [← h2]; exact h1

/-- `predictPure` on a loaded store with well-behaved artifacts. -/
theorem predictPure_parts {Feat : Type} {m : Model Feat} {v : Vectorizer Feat}
    {msg : String} {X : Feat} {val : PyObj} {rest : List PyObj}
    (hX : v [msg] = .ok X) (hp : m X = .ok (val :: rest)) :
    predictPure (⟨some m, some v⟩ : Store Feat) msg = .ok (rawLabel val) := by
  simp [predictPure, hX, hp]

/-- Slow-path success of `_predict_text`: nothing loaded yet and both loads
succeed. -/
theorem predictText_slow_ok {Feat : Type} {env : Env Feat} {st : Store Feat}
    {m : Model Feat} {v : Vectorizer Feat} {msg : String} {X : Feat}
    {val : PyObj} {rest : List PyObj}
    (hld : ¬ isLoaded st = true) (hm : env.loadModel = .ok m)
    (hv : env.loadVectorizer = .ok v)
    (hX : v [msg] = .ok X) (hp : m X = .ok (val :: rest)) :
    predictText env st msg = (.ok (rawLabel val), ⟨some m, some v⟩) := by
  have hload : loadArtifactsOnce env st = ⟨⟨some m, some v⟩, none, true, true, true, true⟩ := by
    rw [loadArtifactsOnce_eq, if_neg hld, hm, hv]
  simp [predictText, hload, predictPure_parts hX hp]

/-- POST `/predict` rejects an empty (post-strip) message with 400 and does not
touch the store. -/
theorem predictJson_empty {Feat : Type} (env : Env Feat) (st : Store Feat)
    {body : Option (List (String × JVal))} (hjm : jsonMessage body = "") :
    predictJson env st body =
      ((.error "Field 'message' is required and must be non-empty.", 400), st) := by
  simp [predictJson, hjm]

/-- POST `/predict` on a successful inference. -/
theorem predictJson_of_ok {Feat : Type} {env : Env Feat} {st st' : Store Feat}
    {body : Option (List (String × JVal))} {l : String}
    (hjm : ¬ jsonMessage body = "")
    (h : predictText env st (jsonMessage body) = (.ok l, st')) :
    predictJson env st body = ((.label l, 200), st') := by
  simp only [predictJson]
  rw [if_neg hjm, h]

/-- POST `/predict` on a failed inference: 503 exactly for
`FileNotFoundError`, 500 for every other exception. -/
theorem predictJson_of_error {Feat : Type} {env : Env Feat} {st st' : Store Feat}
    {body : Option (List (String × JVal))} {e : PyExc}
    (hjm : ¬ jsonMessage body = "")
    (h : predictText env st (jsonMessage body) = (.error e, st')) :
    predictJson env st body =
      ((if e = .fileNotFound then
          ((.error "Model artifacts not found on server.", 503) : JsonBody × Nat)
        else (.error "Inference failed.", 500)), st') := by
  simp only [predictJson]
  rw [if_neg hjm, h]
  cases e <;> simp

/-- POST `/predict-form` rejects an empty (post-strip) message with 400. -/
theorem predictForm_empty {Feat : Type} (cfg : Config) (env : Env Feat)
    (st : Store Feat) {form : List (String × String)}
    (hfm : formMessage form = "") :
    predictForm cfg env st form =
      ((⟨st.loadedModel.isSome && st.vectorizer.isSome, cfg.modelPath, none,
         some "Field 'message' is required and must be non-empty."⟩, 400), st) := by
  simp [predictForm, hfm]

/-- POST `/predict-form` on a successful inference. -/
theorem predictForm_of_ok {Feat : Type} (cfg : Config) {env : Env Feat}
    {st st' : Store Feat} {form : List (String × String)} {l : String}
    (hfm : ¬ formMessage form = "")
    (h : predictText env st (formMessage form) = (.ok l, st')) :
    predictForm cfg env st form = ((⟨true, cfg.modelPath, some l, none⟩, 200), st') := by
  simp only [predictForm]
  rw [if_neg hfm, h]

/-- POST `/predict-form` on a failed inference. -/
theorem predictForm_of_error {Feat : Type} (cfg : Config) {env : Env Feat}
    {st st' : Store Feat} {form : List (String × String)} {e : PyExc}
    (hfm : ¬ formMessage form = "")
    (h : predictText env st (formMessage form) = (.error e, st')) :
    predictForm cfg env st form =
      ((if e = .fileNotFound then
          ((⟨false, cfg.modelPath, none,
             some "Model artifacts not found on server."⟩, 503) : FormPage × Nat)
        else (⟨st'.loadedModel.isSome && st'.vectorizer.isSome, cfg.modelPath, none,
               some "Inference failed."⟩, 500)), st') := by
  simp only [predictForm]
  rw [if_neg hfm, h]
  cases e <;> simp

/-- Once the store is loaded, no operation changes it. -/
theorem applyOp_loaded {Feat : Type} (op : Op Feat) (st : Store Feat)
    (h : isLoaded st = true) : applyOp op st = st := by
  cases op with
  | ensure env => simp [applyOp, load_fast env st h]
  | predict env msg => simp [applyOp, predictText_loaded env st msg h]
  | json env body =>
    by_cases hjm : jsonMessage body = ""
    · simp [applyOp, predictJson_empty env st hjm]
    · cases hp : predictPure st (jsonMessage body) with
      | ok l =>
        have hj := predictJson_of_ok hjm
          (by rw [predictText_loaded env st _ h, hp])
        simp [applyOp, hj]
      | error e =>
        have hj := predictJson_of_error hjm
          (by rw [predictText_loaded env st _ h, hp])
        simp [applyOp, hj]
  | form cfg env data =>
    by_cases hfm : formMessage data = ""
    · simp [applyOp, predictForm_empty cfg env st hfm]
    · cases hp : predictPure st (formMessage data) with
      | ok l =>
        have hf := predictForm_of_ok cfg hfm
          (by rw [predictText_loaded env st _ h, hp])
        simp [applyOp, hf]
      | error e =>
        have hf := predictForm_of_error cfg hfm
          (by rw [predictText_loaded env st _ h, hp])
        simp [applyOp, hf]
  | getHealth => rfl
  | getDemo => rfl

/-- Once the store is loaded, no sequence of operations changes it. -/
theorem applyOps_loaded {Feat : Type} (ops : List (Op Feat)) (st : Store Feat)
    (h : isLoaded st = true) : applyOps ops st = st := by
  induction ops generalizing st with
  | nil => rfl
  | cons op ops ih =>
    show applyOps ops (applyOp op st) = st
    rw [applyOp_loaded op st h]
    exact ih st h

/-! ### Claim C1 -/

/-- C1 (amended): a terminating call of `_load_artifacts_once` either returns
normally with both handles set, or propagates an exception with the
*vectorizer* handle left unset — the model handle may already have been
assigned — and any subsequent caller whose environment then provides both
files completes the load from that state. (The original claim's "both handles
remain unset" is refuted by `c1_counterexample`.) -/
theorem c1_load_postcondition {Feat : Type} (env : Env Feat) (st : Store Feat)
    (hinv : StoreInv st) :
    ((loadArtifactsOnce env st).error = none →
      isLoaded (loadArtifactsOnce env st).store = true) ∧
    ((loadArtifactsOnce env st).error.isSome = true →
      (loadArtifactsOnce env st).store.vectorizer = none ∧
      ∀ env₂ : Env Feat, EnvOk env₂ →
        (loadArtifactsOnce env₂ (loadArtifactsOnce env st).store).error = none ∧
        isLoaded (loadArtifactsOnce env₂ (loadArtifactsOnce env st).store).store = true) := by
  refine ⟨load_error_none_loaded env st, fun he =>
    ⟨load_error_vec_none env st hinv he, ?_⟩⟩
  rintro env₂ ⟨⟨m, hm⟩, ⟨v, hv⟩⟩
  have hvn := load_error_vec_none env st hinv he
  have hld : ¬ isLoaded (loadArtifactsOnce env st).store = true := by
    simp [isLoaded, hvn]
  have hrun : loadArtifactsOnce env₂ (loadArtifactsOnce env st).store
      = ⟨⟨some m, some v⟩, none, true, true, true, true⟩ := by
    rw [loadArtifactsOnce_eq, if_neg hld, hm, hv]
  rw [hrun]
  exact ⟨rfl, rfl⟩

/-- C1 counterexample: with the model file loadable and the vectorizer file
missing, the call propagates an exception while `_loaded_model` is left
assigned, so the handles do not "remain unset" on failure. -/
theorem c1_counterexample :
    (loadArtifactsOnce envVecMissing (initStore Nat)).error.isSome = true ∧
    (loadArtifactsOnce envVecMissing (initStore Nat)).store.loadedModel.isSome = true :=
  ⟨rfl, rfl⟩

/-- C1 witness: the amended postcondition evaluated at concrete environments. -/
theorem c1_witness :
    isLoaded (loadArtifactsOnce envGood (initStore Nat)).store = true ∧
    (loadArtifactsOnce envVecMissing (initStore Nat)).store.vectorizer = none ∧
    (loadArtifactsOnce envGood
      (loadArtifactsOnce envVecMissing (initStore Nat)).store).error = none := by
  have hinv : StoreInv (initStore Nat) := by intro h2; simp [initStore] at h2
  refine ⟨(c1_load_postcondition envGood (initStore Nat) hinv).1 rfl, ?_, ?_⟩
  · exact ((c1_load_postcondition envVecMissing (initStore Nat) hinv).2 rfl).1
  · exact (((c1_load_postcondition envVecMissing (initStore Nat) hinv).2 rfl).2
      envGood ⟨⟨modelGood, rfl⟩, ⟨vecGood, rfl⟩⟩).1

/-! ### Claim C2 — counterexample (the machine theorem follows further down) -/

/-- C2 counterexample: with a loadable model file and a malformed vectorizer
file, a first caller observes the propagated failure with `_loaded_model` set
(not "handles left unset"), and a second caller runs the
file-read-and-deserialize block a second time (not "exactly once in the
process"). -/
theorem c2_counterexample :
    (loadArtifactsOnce envVecBad (initStore Nat)).error = some .badPickle ∧
    (loadArtifactsOnce envVecBad (initStore Nat)).store.loadedModel.isSome = true ∧
    (loadArtifactsOnce envVecBad (initStore Nat)).deserialized = true ∧
    (loadArtifactsOnce envVecBad
      (loadArtifactsOnce envVecBad (initStore Nat)).store).deserialized = true :=
  ⟨rfl, rfl, rfl, rfl⟩

/-! ### Claim C3 -/

/-- C3 (amended): both handles are unset at process start; once both handles
are set, no operation (`ensure_loaded`, `_predict_text`, or any HTTP handler)
changes the store; a handle, once set, is never unset by the loader; and the
vectorizer handle is assigned only while it is still unset (hence at most
once). However, the model handle may be *re*-assigned by a retry after a
partial failure — `c3_counterexample` refutes the original "assigned at most
once" for `_loaded_model`. -/
theorem c3_write_once {Feat : Type} (ops : List (Op Feat)) (env : Env Feat)
    (st st₂ : Store Feat) (h : isLoaded st = true) (hinv : StoreInv st₂) :
    (initStore Feat).loadedModel = none ∧ (initStore Feat).vectorizer = none ∧
    applyOps ops st = st ∧
    ((loadArtifactsOnce env st₂).vecAssigned = true → st₂.vectorizer = none) ∧
    (st₂.loadedModel.isSome = true →
      (loadArtifactsOnce env st₂).store.loadedModel.isSome = true) ∧
    (st₂.vectorizer.isSome = true →
      (loadArtifactsOnce env st₂).store.vectorizer.isSome = true) := by
  refine ⟨rfl, rfl, applyOps_loaded ops st h, ?_, ?_, ?_⟩
  · rw [loadArtifactsOnce_eq]
    by_cases hld : isLoaded st₂ = true
    · rw [if_pos hld]; intro hfalse; simp at hfalse
    · rw [if_neg hld]
      intro _
      exact not_loaded_vec_none hinv hld
  · rw [loadArtifactsOnce_eq]
    by_cases hld : isLoaded st₂ = true
    · rw [if_pos hld]; exact fun hx => hx
    · rw [if_neg hld]
      cases hm : env.loadModel with
      | error e => exact fun hx => hx
      | ok m =>
        cases hv : env.loadVectorizer with
        | error e => exact fun _ => rfl
        | ok v => exact fun _ => rfl
  · rw [loadArtifactsOnce_eq]
    by_cases hld : isLoaded st₂ = true
    · rw [if_pos hld]; exact fun hx => hx
    · rw [if_neg hld]
      cases hm : env.loadModel with
      | error e => exact fun hx => hx
      | ok m =>
        cases hv : env.loadVectorizer with
        | error e => exact fun hx => hx
        | ok v => exact fun _ => rfl

/-- C3 counterexample: `_loaded_model` is assigned by a failing call (model
loads, vectorizer read fails) and assigned *again*, to a different object, by
a later successful call — so the handle is not "assigned at most once" over
the process lifetime. -/
theorem c3_counterexample :
    (loadArtifactsOnce envVecMissing (initStore Nat)).modelAssigned = true ∧
    (loadArtifactsOnce envVecMissing (initStore Nat)).error.isSome = true ∧
    (loadArtifactsOnce envPlain
      (loadArtifactsOnce envVecMissing (initStore Nat)).store).modelAssigned = true ∧
    ((loadArtifactsOnce envVecMissing (initStore Nat)).store.loadedModel.map
      (fun f => f 0)) = some (.ok [⟨true, "1", "1"⟩]) ∧
    (((loadArtifactsOnce envPlain
        (loadArtifactsOnce envVecMissing (initStore Nat)).store).store.loadedModel.map
      (fun f => f 0))) = some (.ok [⟨false, "", "2"⟩]) :=
  ⟨rfl, rfl, rfl, rfl, rfl⟩

/-- C3 witness: the amended invariants evaluated at concrete inputs. -/
theorem c3_witness :
    applyOps [(Op.getHealth : Op Nat)] storeLoaded = storeLoaded ∧
    ((loadArtifactsOnce envGood (initStore Nat)).vecAssigned = true →
      (initStore Nat).vectorizer = none) := by
  have h := c3_write_once [(Op.getHealth : Op Nat)] envGood storeLoaded (initStore Nat)
    rfl (by intro h2; simp [initStore] at h2)
  exact ⟨h.2.2.1, h.2.2.2.1⟩

/-! ### Claim C4 -/

/-- C4 (amended): with a non-empty message, a load-time `FileNotFoundError`
(missing artifact path) surfaces as 503 with the "model not available" error
on both POST `/predict` and POST `/predict-form`, and the failure is
recoverable: a later request in an environment where both files deserialize
(and the artifacts behave) returns 200. A present-but-*unreadable* path,
however, raises `PermissionError`, which the handlers do not treat as
artifacts-not-found: it yields 500, refuting the original claim's
"missing or unreadable" (`c4_counterexample`). -/
theorem c4_not_found {Feat : Type} (cfg : Config) (env : Env Feat)
    (st : Store Feat) (body : Option (List (String × JVal)))
    (form : List (String × String)) (hinv : StoreInv st)
    (hjm : ¬ jsonMessage body = "") (hfm : ¬ formMessage form = "")
    (he : (loadArtifactsOnce env st).error = some .fileNotFound) :
    (predictJson env st body).1 = (.error "Model artifacts not found on server.", 503) ∧
    (predictForm cfg env st form).1
      = (⟨false, cfg.modelPath, none, some "Model artifacts not found on server."⟩, 503) ∧
    (∀ (env₂ : Env Feat) (m : Model Feat) (v : Vectorizer Feat) (X : Feat)
        (val : PyObj) (rest : List PyObj),
      env₂.loadModel = .ok m → env₂.loadVectorizer = .ok v →
      v [jsonMessage body] = .ok X → m X = .ok (val :: rest) →
      (predictJson env₂ (predictJson env st body).2 body).1
        = (.label (rawLabel val), 200)) := by
  have hj := predictJson_of_error hjm (predictText_error (jsonMessage body) he)
  have hf := predictForm_of_error cfg hfm (predictText_error (formMessage form) he)
  refine ⟨?_, ?_, ?_⟩
  · rw [hj]; simp
  · rw [hf]; simp
  · intro env₂ m v X val rest hm hv hX hp
    have hst : (predictJson env st body).2 = (loadArtifactsOnce env st).store := by
      rw [hj]
    rw [hst]
    have hvn : (loadArtifactsOnce env st).store.vectorizer = none :=
      load_error_vec_none env st hinv (by rw [he]; rfl)
    have hld : ¬ isLoaded (loadArtifactsOnce env st).store = true := by
      simp [isLoaded, hvn]
    rw [predictJson_of_ok hjm (predictText_slow_ok hld hm hv hX hp)]

/-- C4 counterexample: a present-but-unreadable model path raises
`PermissionError` at load time; the handlers answer 500 ("Inference failed."),
not the claimed 503. -/
theorem c4_counterexample :
    (predictJson envUnreadable (initStore Nat)
      (some [("message", .jstr "hello")])).1 = (.error "Inference failed.", 500) := rfl

/-- C4 witness: the amended behaviour evaluated at concrete inputs, including
the recovery after the file appears. -/
theorem c4_witness :
    (predictJson envModelMissing (initStore Nat)
      (some [("message", .jstr "news")])).1
      = (.error "Model artifacts not found on server.", 503) ∧
    (predictJson envGood
      ((predictJson envModelMissing (initStore Nat)
        (some [("message", .jstr "news")])).2)
      (some [("message", .jstr "news")])).1 = (.label "1", 200) := by
  have h := c4_not_found cfg0 envModelMissing (initStore Nat)
    (some [("message", .jstr "news")]) [("message", "news")]
    (by intro h2; simp [initStore] at h2) (by decide) (by decide) rfl
  exact ⟨h.1, h.2.2 envGood modelGood vecGood 7 ⟨true, "1", "1"⟩ [] rfl rfl rfl rfl⟩

/-! ### Claim C5 -/

/-- C5: POST `/predict` answers 400 with the exact error body whenever the
message is missing or empty after trimming (in particular on a `{}` body and
on a missing/non-JSON body), 200 with `{"label": ...}` on successful
inference, and 500 on any inference failure other than `FileNotFoundError`. -/
theorem c5_json_contract {Feat : Type} (env : Env Feat) (st st' : Store Feat)
    (body : Option (List (String × JVal))) (l : String) (e : PyExc) :
    (predictJson env st none).1
      = (.error "Field 'message' is required and must be non-empty.", 400) ∧
    (predictJson env st (some [])).1
      = (.error "Field 'message' is required and must be non-empty.", 400) ∧
    (jsonMessage body = "" → (predictJson env st body).1
      = (.error "Field 'message' is required and must be non-empty.", 400)) ∧
    (¬ jsonMessage body = "" → predictText env st (jsonMessage body) = (.ok l, st') →
      (predictJson env st body).1 = (.label l, 200)) ∧
    (¬ jsonMessage body = "" → ¬ e = .fileNotFound →
      predictText env st (jsonMessage body) = (.error e, st') →
      (predictJson env st body).1 = (.error "Inference failed.", 500)) := by
  refine ⟨?_, ?_, fun hjm => ?_, fun hjm h => ?_, fun hjm hne h => ?_⟩
  · rw [@predictJson_empty Feat env st none (by decide)]
  · rw [@predictJson_empty Feat env st (some []) (by decide)]
  · rw [predictJson_empty env st hjm]
  · rw [predictJson_of_ok hjm h]
  · rw [predictJson_of_error hjm h]
    simp [hne]

/-- C5 witness: the contract evaluated on concrete requests. -/
theorem c5_witness :
    (predictJson envGood (initStore Nat) (some [])).1
      = (.error "Field 'message' is required and must be non-empty.", 400) ∧
    (predictJson envGood (initStore Nat) (some [("message", .jstr "   ")])).1
      = (.error "Field 'message' is required and must be non-empty.", 400) ∧
    (predictJson envGood (initStore Nat) (some [("message", .jstr "hi")])).1
      = (.label "1", 200) ∧
    (predictJson envUnreadable (initStore Nat) (some [("message", .jstr "hi")])).1
      = (.error "Inference failed.", 500) := by
  refine ⟨?_, ?_, ?_, ?_⟩
  · exact (c5_json_contract envGood (initStore Nat) (initStore Nat)
      (some []) "1" .otherError).2.1
  · exact (c5_json_contract envGood (initStore Nat) (initStore Nat)
      (some [("message", .jstr "   ")]) "1" .otherError).2.2.1 (by decide)
  · exact (c5_json_contract envGood (initStore Nat) storeLoaded
      (some [("message", .jstr "hi")]) "1" .otherError).2.2.2.1 (by decide)
      (by have hm : jsonMessage (some [("message", JVal.jstr "hi")]) = "hi" := by decide
          rw [hm]
          rfl)
  · exact (c5_json_contract envUnreadable (initStore Nat) (initStore Nat)
      (some [("message", .jstr "hi")]) "1" .permissionDenied).2.2.2.2 (by decide)
      (by decide)
      (by have hm : jsonMessage (some [("message", JVal.jstr "hi")]) = "hi" := by decide
          rw [hm]
          rfl)

/-! ### Claim C6 -/

/-- C6: the label returned by `_predict_text` is obtained from the raw
prediction `pred[0]` by extracting the native scalar through `item()` when the
value has one and stringifying, otherwise stringifying the value directly —
whatever the classifier returns is passed through. -/
theorem c6_normalization {Feat : Type} (env : Env Feat) (m : Model Feat)
    (v : Vectorizer Feat) (msg : String) (X : Feat) (val : PyObj)
    (rest : List PyObj)
    (hX : v [msg] = .ok X) (hp : m X = .ok (val :: rest)) :
    predictText env ⟨some m, some v⟩ msg =
      (.ok (if val.hasItem = true then val.itemStr else val.selfStr),
        ⟨some m, some v⟩) := by
  rw [predictText_loaded env ⟨some m, some v⟩ msg rfl, predictPure_parts hX hp]
  rfl

/-- C6 witness: a boxed (has `item()`) and a plain prediction value. -/
theorem c6_witness :
    predictText envGood storeLoaded "headline" = (.ok "1", storeLoaded) ∧
    predictText envPlain (⟨some modelPlain, some vecGood⟩ : Store Nat) "headline"
      = (.ok "2", ⟨some modelPlain, some vecGood⟩) := by
  constructor
  · exact c6_normalization envGood modelGood vecGood "headline" 7 ⟨true, "1", "1"⟩ [] rfl rfl
  · exact c6_normalization envPlain modelPlain vecGood "headline" 7 ⟨false, "", "2"⟩ [] rfl rfl

/-! ### Claim C7 -/

/-- C7: `is_loaded` is true iff both handles are set (it is a total function
of the store, so it cannot block or raise), it is false in the process-start
state, and after the store is loaded it stays true for ever, across any
sequence of subsequent operations. -/
theorem c7_is_loaded {Feat : Type} (ops : List (Op Feat)) (st : Store Feat)
    (h : isLoaded st = true) :
    isLoaded (initStore Feat) = false ∧
    (∀ st₂ : Store Feat, isLoaded st₂ = true ↔
      (st₂.loadedModel.isSome = true ∧ st₂.vectorizer.isSome = true)) ∧
    isLoaded (applyOps ops st) = true := by
  refine ⟨rfl, fun st₂ => ?_, ?_⟩
  · simp [isLoaded]
  · rw [applyOps_loaded ops st h]; exact h

/-- C7 witness: the load-state query evaluated after concrete operations. -/
theorem c7_witness : isLoaded (applyOps [(Op.getDemo : Op Nat)] storeLoaded) = true :=
  (c7_is_loaded [(Op.getDemo : Op Nat)] storeLoaded rfl).2.2

/-! ### Claim C8 -/

/-- C8: a successful `predict(text)` leaves the store untouched, so a repeated
call with the same text — under any environment, since the fast path never
re-reads the files — returns the identical label and the identical store. -/
theorem c8_deterministic {Feat : Type} (env env₂ : Env Feat) (st st' : Store Feat)
    (msg l : String) (h : predictText env st msg = (.ok l, st')) :
    predictText env₂ st' msg = (.ok l, st') := by
  obtain ⟨hld, hp, _⟩ := predictText_ok h
  rw [predictText_loaded env₂ st' msg hld, hp]

/-- C8 witness: a second call (even under a different environment) repeats the
first call's label. -/
theorem c8_witness :
    predictText envPlain storeLoaded "fixed input text" = (.ok "1", storeLoaded) :=
  c8_deterministic envGood envPlain (initStore Nat) storeLoaded "fixed input text" "1" rfl

/-! ### Claim C9 -/

/-- C9: GET `/` always returns 200 with the fixed-shape body
`{status: "ok", model_loaded, model_path, vectorizer_path}`, where
`model_loaded` is true exactly when both handles are set; the handler is a
total function of the store, so it never fails regardless of load state. -/
theorem c9_health {Feat : Type} (cfg : Config) (st : Store Feat) :
    health cfg st = (⟨"ok", isLoaded st, cfg.modelPath, cfg.vectorizerPath⟩, 200) ∧
    ((health cfg st).1.model_loaded = true ↔
      (st.loadedModel.isSome = true ∧ st.vectorizer.isSome = true)) := by
  constructor
  · rfl
  · simp [health]

/-! ### Claim C10 -/

/-- C10: POST `/predict` stringifies the `message` value before trimming and
validating, so JSON `null` (string form `"None"`) and the number `0` (string
form `"0"`) pass validation and their string forms are fed to the classifier;
a missing or non-JSON body is treated as the empty object and rejected 400. -/
theorem c10_stringify_first {Feat : Type} (env : Env Feat) (st : Store Feat)
    (m : Model Feat) (v : Vectorizer Feat) (X Y : Feat) (val val₂ : PyObj)
    (rest rest₂ : List PyObj)
    (hX : v ["None"] = .ok X) (hp : m X = .ok (val :: rest))
    (hY : v ["0"] = .ok Y) (hq : m Y = .ok (val₂ :: rest₂)) :
    (predictJson env st none).1
      = (.error "Field 'message' is required and must be non-empty.", 400) ∧
    jsonMessage (some [("message", .jnull)]) = "None" ∧
    jsonMessage (some [("message", .jint 0)]) = "0" ∧
    (predictJson env ⟨some m, some v⟩ (some [("message", .jnull)])).1
      = (.label (rawLabel val), 200) ∧
    (predictJson env ⟨some m, some v⟩ (some [("message", .jint 0)])).1
      = (.label (rawLabel val₂), 200) := by
  have hnull : jsonMessage (some [("message", JVal.jnull)]) = "None" := by decide
  have hzero : jsonMessage (some [("message", JVal.jint 0)]) = "0" := by decide
  refine ⟨?_, hnull, hzero, ?_, ?_⟩
  · rw [@predictJson_empty Feat env st none (by decide)]
  · have h4 : predictText env (⟨some m, some v⟩ : Store Feat)
        (jsonMessage (some [("message", JVal.jnull)]))
        = (.ok (rawLabel val), ⟨some m, some v⟩) := by
      rw [predictText_loaded env ⟨some m, some v⟩ _ rfl, hnull, predictPure_parts hX hp]
    rw [predictJson_of_ok (by simp [hnull]) h4]
  · have h5 : predictText env (⟨some m, some v⟩ : Store Feat)
        (jsonMessage (some [("message", JVal.jint 0)]))
        = (.ok (rawLabel val₂), ⟨some m, some v⟩) := by
      rw [predictText_loaded env ⟨some m, some v⟩ _ rfl, hzero, predictPure_parts hY hq]
    rw [predictJson_of_ok (by simp [hzero]) h5]

/-- C10 witness: `null` and `0` messages reach the classifier as `"None"` and
`"0"` and produce a 200 with the classifier's label. -/
theorem c10_witness :
    (predictJson envGood (initStore Nat) none).1
      = (.error "Field 'message' is required and must be non-empty.", 400) ∧
    (predictJson envGood (⟨some modelGood, some vecGood⟩ : Store Nat)
      (some [("message", .jnull)])).1 = (.label "1", 200) ∧
    (predictJson envGood (⟨some modelGood, some vecGood⟩ : Store Nat)
      (some [("message", .jint 0)])).1 = (.label "1", 200) := by
  have h := c10_stringify_first envGood (initStore Nat) modelGood vecGood 7 7
    ⟨true, "1", "1"⟩ ⟨true, "1", "1"⟩ [] [] rfl rfl rfl rfl
  exact ⟨h.1, h.2.2.2.1, h.2.2.2.2⟩

/-! ### Claim C2 — invariants of the interleaving machine -/

theorem setPC_self {n : Nat} (pcs : Fin n → PC) (i : Fin n) (p : PC) :
    setPC pcs i p i = p := by
  simp [setPC]

theorem setPC_ne {n : Nat} (pcs : Fin n → PC) (i a : Fin n) (p : PC)
    (h : ¬ a = i) : setPC pcs i p a = pcs a := by
  simp [setPC, h]

/-- Steps that only move one thread between non-critical program counters
(the two fast-path reads) preserve the invariant. -/
theorem cInv_pcOnly {n : Nat} {M V : Type} {m : M} {v : V} {s : CState n M V}
    (inv : CInv m v s) (i : Fin n) (p : PC)
    (hold : inCrit (s.pc i) = false) (hnew : inCrit p = false)
    (hfin : p = .finished → s.model.isSome = true ∧ s.vec.isSome = true) :
    CInv m v { s with pc := setPC s.pc i p } := by
  refine ⟨?_, ?_, ?_, inv.modelVal, inv.vecVal, inv.vecModel, ?_, ?_, ?_,
    inv.loadsLe, ?_, ?_, ?_⟩
  all_goals dsimp only
  · intro a b ha hb
    by_cases hai : a = i
    · subst hai
      rw [setPC_self] at ha
      rw [hnew] at ha
      exact absurd ha (by simp)
    · rw [setPC_ne s.pc i a p hai] at ha
      by_cases hbi : b = i
      · subst hbi
        rw [setPC_self] at hb
        rw [hnew] at hb
        exact absurd hb (by simp)
      · rw [setPC_ne s.pc i b p hbi] at hb
        exact inv.mutex a b ha hb
  · intro a hla
    have hcrit := inv.lockSome a hla
    by_cases hai : a = i
    · subst hai
      exact absurd hcrit (by simp [hold])
    · rw [setPC_ne s.pc i a p hai]
      exact hcrit
  · intro hl a
    by_cases hai : a = i
    · subst hai; rw [setPC_self]; exact hnew
    · rw [setPC_ne s.pc i a p hai]; exact inv.lockNone hl a
  · intro a ha
    by_cases hai : a = i
    · subst hai
      rw [setPC_self] at ha
      rw [ha] at hnew
      simp [inCrit] at hnew
    · rw [setPC_ne s.pc i a p hai] at ha
      exact inv.pcSetVec a ha
  · intro a ha
    by_cases hai : a = i
    · subst hai
      rw [setPC_self] at ha
      rw [ha] at hnew
      simp [inCrit] at hnew
    · rw [setPC_ne s.pc i a p hai] at ha
      exact inv.pcUnlock a ha
  · intro a ha
    by_cases hai : a = i
    · subst hai
      rw [setPC_self] at ha
      exact hfin ha
    · rw [setPC_ne s.pc i a p hai] at ha
      exact inv.pcFin a ha
  · constructor
    · intro h1
      rcases inv.loadsIff.mp h1 with hm | ⟨a, ha⟩
      · exact Or.inl hm
      · refine Or.inr ⟨a, ?_⟩
        have hai : ¬ a = i := by
          intro hh
          subst hh
          rw [ha] at hold
          simp [inCrit] at hold
        rw [setPC_ne s.pc i a p hai]
        exact ha
    · intro h1
      rcases h1 with hm | ⟨a, ha⟩
      · exact inv.loadsIff.mpr (Or.inl hm)
      · refine inv.loadsIff.mpr (Or.inr ⟨a, ?_⟩)
        by_cases hai : a = i
        · subst hai
          rw [setPC_self] at ha
          rw [ha] at hnew
          simp [inCrit] at hnew
        · rw [setPC_ne s.pc i a p hai] at ha
          exact ha
  · intro hm hv2
    obtain ⟨a, ha⟩ := inv.partialVec hm hv2
    have hai : ¬ a = i := by
      intro hh
      subst hh
      rw [ha] at hold
      simp [inCrit] at hold
    exact ⟨a, by rw [setPC_ne s.pc i a p hai]; exact ha⟩
  · intro a ha
    by_cases hai : a = i
    · subst hai
      rw [setPC_self] at ha
      rw [ha] at hnew
      simp [inCrit] at hnew
    · rw [setPC_ne s.pc i a p hai] at ha
      exact inv.setModelNone a ha

/-- Acquiring the free lock preserves the invariant: the lock being free means
nobody is in the critical region. -/
theorem cInv_acquire {n : Nat} {M V : Type} {m : M} {v : V} {s : CState n M V}
    (inv : CInv m v s) (i : Fin n)
    (hpc : s.pc i = .waiting) (hl : s.lock = none) :
    CInv m v { s with lock := some i, pc := setPC s.pc i .critCheck } := by
  have hfree : ∀ a : Fin n, inCrit (s.pc a) = false := inv.lockNone hl
  refine ⟨?_, ?_, ?_, inv.modelVal, inv.vecVal, inv.vecModel, ?_, ?_, ?_,
    inv.loadsLe, ?_, ?_, ?_⟩
  all_goals dsimp only
  · intro a b ha hb
    by_cases hai : a = i
    · by_cases hbi : b = i
      · rw [hai, hbi]
      · rw [setPC_ne s.pc i b _ hbi] at hb
        rw [hfree b] at hb
        exact absurd hb (by simp)
    · rw [setPC_ne s.pc i a _ hai] at ha
      rw [hfree a] at ha
      exact absurd ha (by simp)
  · intro a hla
    have hai : a = i := by
      injection hla with hh
      exact hh.symm
    subst hai
    rw [setPC_self]
    rfl
  · intro hl' a
    exact absurd hl' (by simp)
  · intro a ha
    by_cases hai : a = i
    · subst hai
      rw [setPC_self] at ha
      exact absurd ha (by simp)
    · rw [setPC_ne s.pc i a _ hai] at ha
      have := hfree a
      rw [ha] at this
      simp [inCrit] at this
  · intro a ha
    by_cases hai : a = i
    · subst hai
      rw [setPC_self] at ha
      exact absurd ha (by simp)
    · rw [setPC_ne s.pc i a _ hai] at ha
      have := hfree a
      rw [ha] at this
      simp [inCrit] at this
  · intro a ha
    by_cases hai : a = i
    · subst hai
      rw [setPC_self] at ha
      exact absurd ha (by simp)
    · rw [setPC_ne s.pc i a _ hai] at ha
      exact inv.pcFin a ha
  · constructor
    · intro h1
      rcases inv.loadsIff.mp h1 with hm | ⟨a, ha⟩
      · exact Or.inl hm
      · have := hfree a
        rw [ha] at this
        simp [inCrit] at this
    · intro h1
      rcases h1 with hm | ⟨a, ha⟩
      · exact inv.loadsIff.mpr (Or.inl hm)
      · by_cases hai : a = i
        · subst hai
          rw [setPC_self] at ha
          exact absurd ha (by simp)
        · rw [setPC_ne s.pc i a _ hai] at ha
          have := hfree a
          rw [ha] at this
          simp [inCrit] at this
  · intro hm hv2
    obtain ⟨a, ha⟩ := inv.partialVec hm hv2
    have := hfree a
    rw [ha] at this
    simp [inCrit] at this
  · intro a ha
    by_cases hai : a = i
    · subst hai
      rw [setPC_self] at ha
      exact absurd ha (by simp)
    · rw [setPC_ne s.pc i a _ hai] at ha
      have := hfree a
      rw [ha] at this
      simp [inCrit] at this

/-- Passing the re-check under the lock and entering the deserialize block
preserves the invariant; in particular it can only happen while `loads = 0`. -/
theorem cInv_innerTrue {n : Nat} {M V : Type} {m : M} {v : V} {s : CState n M V}
    (inv : CInv m v s) (i : Fin n)
    (hpc : s.pc i = .critCheck) (hmv : s.model = none ∨ s.vec = none) :
    CInv m v { s with pc := setPC s.pc i .setModel, loads := s.loads + 1 } := by
  have hmv2 : s.model = none ∧ s.vec = none := by
    rcases hmv with hm | hv
    · refine ⟨hm, ?_⟩
      cases hveq : s.vec with
      | none => rfl
      | some w =>
        have := inv.vecModel (by rw [hveq]; rfl)
        rw [hm] at this
        simp at this
    · refine ⟨?_, hv⟩
      cases hmeq : s.model with
      | none => rfl
      | some w =>
        obtain ⟨a, ha⟩ := inv.partialVec (by rw [hmeq]; rfl) hv
        have hia := inv.mutex a i (by rw [ha]; rfl) (by rw [hpc]; rfl)
        rw [hia, hpc] at ha
        exact absurd ha (by simp)
  have hl0 : s.loads = 0 := by
    have hle := inv.loadsLe
    by_contra hne
    have h1 : s.loads = 1 := by omega
    rcases inv.loadsIff.mp h1 with hm | ⟨a, ha⟩
    · rw [hmv2.1] at hm
      simp at hm
    · have hia := inv.mutex a i (by rw [ha]; rfl) (by rw [hpc]; rfl)
      rw [hia, hpc] at ha
      exact absurd ha (by simp)
  have key : ∀ c : Fin n, inCrit (setPC s.pc i .setModel c) = true → c = i := by
    intro c hc
    by_cases hci : c = i
    · exact hci
    · rw [setPC_ne s.pc i c _ hci] at hc
      exact inv.mutex c i hc (by rw [hpc]; rfl)
  refine ⟨?_, ?_, ?_, inv.modelVal, inv.vecVal, inv.vecModel, ?_, ?_, ?_,
    ?_, ?_, ?_, ?_⟩
  all_goals dsimp only
  · intro a b ha hb
    rw [key a ha, key b hb]
  · intro a hla
    by_cases hai : a = i
    · subst hai; rw [setPC_self]; rfl
    · rw [setPC_ne s.pc i a _ hai]
      exact inv.lockSome a hla
  · intro hl' a
    have := inv.lockNone hl' i
    rw [hpc] at this
    simp [inCrit] at this
  · intro a ha
    by_cases hai : a = i
    · subst hai
      rw [setPC_self] at ha
      exact absurd ha (by simp)
    · rw [setPC_ne s.pc i a _ hai] at ha
      exact absurd (inv.mutex a i (by rw [ha]; rfl) (by rw [hpc]; rfl)) hai
  · intro a ha
    by_cases hai : a = i
    · subst hai
      rw [setPC_self] at ha
      exact absurd ha (by simp)
    · rw [setPC_ne s.pc i a _ hai] at ha
      exact absurd (inv.mutex a i (by rw [ha]; rfl) (by rw [hpc]; rfl)) hai
  · intro a ha
    by_cases hai : a = i
    · subst hai
      rw [setPC_self] at ha
      exact absurd ha (by simp)
    · rw [setPC_ne s.pc i a _ hai] at ha
      exact inv.pcFin a ha
  · rw [hl0]
  · constructor
    · intro _
      exact Or.inr ⟨i, by rw [setPC_self]⟩
    · intro _
      rw [hl0]
  · intro hm _
    rw [hmv2.1] at hm
    simp at hm
  · intro a ha
    by_cases hai : a = i
    · exact hmv2
    · rw [setPC_ne s.pc i a _ hai] at ha
      exact absurd (inv.mutex a i (by rw [ha]; rfl) (by rw [hpc]; rfl)) hai

/-- The re-check failing (both handles already set) releases the lock and
finishes the thread, preserving the invariant. -/
theorem cInv_innerFalse {n : Nat} {M V : Type} {m : M} {v : V} {s : CState n M V}
    (inv : CInv m v s) (i : Fin n)
    (hpc : s.pc i = .critCheck)
    (hm : s.model.isSome = true) (hv : s.vec.isSome = true) :
    CInv m v { s with lock := none, pc := setPC s.pc i .finished } := by
  refine ⟨?_, ?_, ?_, inv.modelVal, inv.vecVal, inv.vecModel, ?_, ?_, ?_,
    inv.loadsLe, ?_, ?_, ?_⟩
  all_goals dsimp only
  · intro a b ha hb
    by_cases hai : a = i
    · subst hai
      rw [setPC_self] at ha
      simp [inCrit] at ha
    · rw [setPC_ne s.pc i a _ hai] at ha
      exact absurd (inv.mutex a i ha (by rw [hpc]; rfl)) hai
  · intro a hla
    exact absurd hla (by simp)
  · intro _ a
    by_cases hai : a = i
    · subst hai; rw [setPC_self]; rfl
    · rw [setPC_ne s.pc i a _ hai]
      cases hc : inCrit (s.pc a) with
      | false => rfl
      | true => exact absurd (inv.mutex a i hc (by rw [hpc]; rfl)) hai
  · intro a ha
    by_cases hai : a = i
    · subst hai
      rw [setPC_self] at ha
      exact absurd ha (by simp)
    · rw [setPC_ne s.pc i a _ hai] at ha
      exact inv.pcSetVec a ha
  · intro a ha
    by_cases hai : a = i
    · subst hai
      rw [setPC_self] at ha
      exact absurd ha (by simp)
    · rw [setPC_ne s.pc i a _ hai] at ha
      exact inv.pcUnlock a ha
  · intro a ha
    by_cases hai : a = i
    · exact ⟨hm, hv⟩
    · rw [setPC_ne s.pc i a _ hai] at ha
      exact inv.pcFin a ha
  · constructor
    · intro h1
      rcases inv.loadsIff.mp h1 with hmm | ⟨a, ha⟩
      · exact Or.inl hmm
      · refine Or.inr ⟨a, ?_⟩
        have hai : ¬ a = i := by
          intro hh
          subst hh
          rw [hpc] at ha
          exact absurd ha (by simp)
        rw [setPC_ne s.pc i a _ hai]
        exact ha
    · intro h1
      rcases h1 with hmm | ⟨a, ha⟩
      · exact inv.loadsIff.mpr (Or.inl hmm)
      · refine inv.loadsIff.mpr (Or.inr ⟨a, ?_⟩)
        by_cases hai : a = i
        · subst hai
          rw [setPC_self] at ha
          exact absurd ha (by simp)
        · rw [setPC_ne s.pc i a _ hai] at ha
          exact ha
  · intro _ hvv
    rw [hvv] at hv
    simp at hv
  · intro a ha
    by_cases hai : a = i
    · subst hai
      rw [setPC_self] at ha
      exact absurd ha (by simp)
    · rw [setPC_ne s.pc i a _ hai] at ha
      exact absurd (inv.mutex a i (by rw [ha]; rfl) (by rw [hpc]; rfl)) hai

/-- Assigning the model handle (first write of the deserialize block)
preserves the invariant. -/
theorem cInv_stepSetModel {n : Nat} {M V : Type} {m : M} {v : V} {s : CState n M V}
    (inv : CInv m v s) (i : Fin n) (hpc : s.pc i = .setModel) :
    CInv m v { s with model := some m, pc := setPC s.pc i .setVec } := by
  have hsm := inv.setModelNone i hpc
  have hl1 : s.loads = 1 := inv.loadsIff.mpr (Or.inr ⟨i, hpc⟩)
  have key : ∀ c : Fin n, inCrit (setPC s.pc i .setVec c) = true → c = i := by
    intro c hc
    by_cases hci : c = i
    · exact hci
    · rw [setPC_ne s.pc i c _ hci] at hc
      exact inv.mutex c i hc (by rw [hpc]; rfl)
  refine ⟨?_, ?_, ?_, Or.inr rfl, inv.vecVal, ?_, ?_, ?_, ?_,
    inv.loadsLe, ?_, ?_, ?_⟩
  all_goals dsimp only
  · intro a b ha hb
    rw [key a ha, key b hb]
  · intro a hla
    by_cases hai : a = i
    · subst hai; rw [setPC_self]; rfl
    · rw [setPC_ne s.pc i a _ hai]
      exact inv.lockSome a hla
  · intro hl' a
    have := inv.lockNone hl' i
    rw [hpc] at this
    simp [inCrit] at this
  · intro _
    rfl
  · intro a _
    rfl
  · intro a ha
    by_cases hai : a = i
    · subst hai
      rw [setPC_self] at ha
      exact absurd ha (by simp)
    · rw [setPC_ne s.pc i a _ hai] at ha
      exact absurd (inv.mutex a i (by rw [ha]; rfl) (by rw [hpc]; rfl)) hai
  · intro a ha
    by_cases hai : a = i
    · subst hai
      rw [setPC_self] at ha
      exact absurd ha (by simp)
    · rw [setPC_ne s.pc i a _ hai] at ha
      have := (inv.pcFin a ha).1
      rw [hsm.1] at this
      simp at this
  · constructor
    · intro _
      exact Or.inl rfl
    · intro _
      exact hl1
  · intro _ _
    exact ⟨i, by rw [setPC_self]⟩
  · intro a ha
    by_cases hai : a = i
    · subst hai
      rw [setPC_self] at ha
      exact absurd ha (by simp)
    · rw [setPC_ne s.pc i a _ hai] at ha
      exact absurd (inv.mutex a i (by rw [ha]; rfl) (by rw [hpc]; rfl)) hai

/-- Assigning the vectorizer handle (second write of the deserialize block)
preserves the invariant. -/
theorem cInv_stepSetVec {n : Nat} {M V : Type} {m : M} {v : V} {s : CState n M V}
    (inv : CInv m v s) (i : Fin n) (hpc : s.pc i = .setVec) :
    CInv m v { s with vec := some v, pc := setPC s.pc i .unlock } := by
  have hmod : s.model.isSome = true := inv.pcSetVec i hpc
  have hl1 : s.loads = 1 := inv.loadsIff.mpr (Or.inl hmod)
  have key : ∀ c : Fin n, inCrit (setPC s.pc i .unlock c) = true → c = i := by
    intro c hc
    by_cases hci : c = i
    · exact hci
    · rw [setPC_ne s.pc i c _ hci] at hc
      exact inv.mutex c i hc (by rw [hpc]; rfl)
  refine ⟨?_, ?_, ?_, inv.modelVal, Or.inr rfl, ?_, ?_, ?_, ?_,
    inv.loadsLe, ?_, ?_, ?_⟩
  all_goals dsimp only
  · intro a b ha hb
    rw [key a ha, key b hb]
  · intro a hla
    by_cases hai : a = i
    · subst hai; rw [setPC_self]; rfl
    · rw [setPC_ne s.pc i a _ hai]
      exact inv.lockSome a hla
  · intro hl' a
    have := inv.lockNone hl' i
    rw [hpc] at this
    simp [inCrit] at this
  · intro _
    exact hmod
  · intro a _
    exact hmod
  · intro a _
    exact ⟨hmod, rfl⟩
  · intro a ha
    by_cases hai : a = i
    · subst hai
      rw [setPC_self] at ha
      exact absurd ha (by simp)
    · rw [setPC_ne s.pc i a _ hai] at ha
      exact ⟨(inv.pcFin a ha).1, rfl⟩
  · constructor
    · intro _
      exact Or.inl hmod
    · intro _
      exact hl1
  · intro _ hvv
    exact absurd hvv (by simp)
  · intro a ha
    by_cases hai : a = i
    · subst hai
      rw [setPC_self] at ha
      exact absurd ha (by simp)
    · rw [setPC_ne s.pc i a _ hai] at ha
      exact absurd (inv.mutex a i (by rw [ha]; rfl) (by rw [hpc]; rfl)) hai

/-- Releasing the lock after a completed load preserves the invariant. -/
theorem cInv_stepUnlock {n : Nat} {M V : Type} {m : M} {v : V} {s : CState n M V}
    (inv : CInv m v s) (i : Fin n) (hpc : s.pc i = .unlock) :
    CInv m v { s with lock := none, pc := setPC s.pc i .finished } := by
  have hu := inv.pcUnlock i hpc
  refine ⟨?_, ?_, ?_, inv.modelVal, inv.vecVal, inv.vecModel, ?_, ?_, ?_,
    inv.loadsLe, ?_, ?_, ?_⟩
  all_goals dsimp only
  · intro a b ha hb
    by_cases hai : a = i
    · subst hai
      rw [setPC_self] at ha
      simp [inCrit] at ha
    · rw [setPC_ne s.pc i a _ hai] at ha
      exact absurd (inv.mutex a i ha (by rw [hpc]; rfl)) hai
  · intro a hla
    exact absurd hla (by simp)
  · intro _ a
    by_cases hai : a = i
    · subst hai; rw [setPC_self]; rfl
    · rw [setPC_ne s.pc i a _ hai]
      cases hc : inCrit (s.pc a) with
      | false => rfl
      | true => exact absurd (inv.mutex a i hc (by rw [hpc]; rfl)) hai
  · intro a _
    exact hu.1
  · intro a _
    exact hu
  · intro a ha
    by_cases hai : a = i
    · exact hu
    · rw [setPC_ne s.pc i a _ hai] at ha
      exact inv.pcFin a ha
  · constructor
    · intro h1
      rcases inv.loadsIff.mp h1 with hmm | ⟨a, ha⟩
      · exact Or.inl hmm
      · refine Or.inr ⟨a, ?_⟩
        have hai : ¬ a = i := by
          intro hh
          subst hh
          rw [hpc] at ha
          exact absurd ha (by simp)
        rw [setPC_ne s.pc i a _ hai]
        exact ha
    · intro h1
      rcases h1 with hmm | ⟨a, ha⟩
      · exact inv.loadsIff.mpr (Or.inl hmm)
      · refine inv.loadsIff.mpr (Or.inr ⟨a, ?_⟩)
        by_cases hai : a = i
        · subst hai
          rw [setPC_self] at ha
          exact absurd ha (by simp)
        · rw [setPC_ne s.pc i a _ hai] at ha
          exact ha
  · intro _ hvv
    have := hu.2
    rw [hvv] at this
    simp at this
  · intro a ha
    by_cases hai : a = i
    · subst hai
      rw [setPC_self] at ha
      exact absurd ha (by simp)
    · rw [setPC_ne s.pc i a _ hai] at ha
      exact absurd (inv.mutex a i (by rw [ha]; rfl) (by rw [hpc]; rfl)) hai

/-- Every step of the machine preserves the invariant. -/
theorem cInv_step {n : Nat} {M V : Type} {m : M} {v : V} {s s' : CState n M V}
    (inv : CInv m v s) (h : CStep m v s s') : CInv m v s' := by
  cases h with
  | fastModelNone i hpc hm =>
    exact cInv_pcOnly inv i .waiting (by rw [hpc]; rfl) rfl
      (by intro hh; simp at hh)
  | fastModelSome i hpc hm =>
    exact cInv_pcOnly inv i .checkVec (by rw [hpc]; rfl) rfl
      (by intro hh; simp at hh)
  | fastVecNone i hpc hv =>
    exact cInv_pcOnly inv i .waiting (by rw [hpc]; rfl) rfl
      (by intro hh; simp at hh)
  | fastVecSome i hpc hv =>
    exact cInv_pcOnly inv i .finished (by rw [hpc]; rfl) rfl
      (fun _ => ⟨inv.vecModel hv, hv⟩)
  | acquire i hpc hl => exact cInv_acquire inv i hpc hl
  | innerTrue i hpc hmv => exact cInv_innerTrue inv i hpc hmv
  | innerFalse i hpc hm hv => exact cInv_innerFalse inv i hpc hm hv
  | stepSetModel i hpc => exact cInv_stepSetModel inv i hpc
  | stepSetVec i hpc => exact cInv_stepSetVec inv i hpc
  | stepUnlock i hpc => exact cInv_stepUnlock inv i hpc

/-- The invariant holds in the initial state. -/
theorem cInv_init (n : Nat) (M V : Type) (m : M) (v : V) :
    CInv m v (initCState n M V) := by
  refine ⟨?_, ?_, ?_, Or.inl rfl, Or.inl rfl, ?_, ?_, ?_, ?_, ?_, ?_, ?_, ?_⟩
  · intro a b ha hb
    simp [initCState, inCrit] at ha
  · intro a hla
    simp [initCState] at hla
  · intro _ a
    rfl
  · intro h
    simp [initCState] at h
  · intro a ha
    simp [initCState] at ha
  · intro a ha
    simp [initCState] at ha
  · intro a ha
    simp [initCState] at ha
  · exact Nat.zero_le 1
  · constructor
    · intro h
      simp [initCState] at h
    · intro h
      rcases h with hm | ⟨a, ha⟩
      · simp [initCState] at hm
      · simp [initCState] at ha
  · intro hm _
    simp [initCState] at hm
  · intro a ha
    simp [initCState] at ha

/-- The invariant holds in every reachable state. -/
theorem cInv_reach {n : Nat} {M V : Type} {m : M} {v : V} {s : CState n M V}
    (h : ReachableC m v (initCState n M V) s) : CInv m v s := by
  induction h with
  | refl => exact cInv_init n M V m v
  | tail _ hstep ih => exact cInv_step ih hstep

/-- C2 (amended): in the environment where deserialization succeeds, any
number `n ≥ 1` of concurrent callers of `_load_artifacts_once` started before
any load has occurred execute the file-read-and-deserialize block exactly once
between them, and when all callers have returned, both handles hold the
deserialized objects — every caller that finished observed both handles set.
The fast path on an already-loaded store returns without acquiring the lock
(second conjunct). The original claim's failure clause ("handles left unset",
and unconditional "exactly once") is refuted by `c2_counterexample`. -/
theorem c2_exactly_once {n : Nat} {M V Feat : Type} (m : M) (v : V)
    (s : CState n M V) (env : Env Feat) (st : Store Feat)
    (hn : 0 < n) (hr : ReachableC m v (initCState n M V) s)
    (hfin : ∀ i : Fin n, s.pc i = .finished)
    (hld : isLoaded st = true) :
    (s.loads = 1 ∧ s.model = some m ∧ s.vec = some v) ∧
    loadArtifactsOnce env st = ⟨st, none, false, false, false, false⟩ := by
  have inv := cInv_reach hr
  have hf := inv.pcFin ⟨0, hn⟩ (hfin ⟨0, hn⟩)
  have hm : s.model = some m := by
    rcases inv.modelVal with hx | hx
    · have := hf.1
      rw [hx] at this
      simp at this
    · exact hx
  have hv : s.vec = some v := by
    rcases inv.vecVal with hx | hx
    · have := hf.2
      rw [hx] at this
      simp at this
    · exact hx
  exact ⟨⟨inv.loadsIff.mpr (Or.inl hf.1), hm, hv⟩, load_fast env st hld⟩

/-- C2 witness: a concrete complete run of one caller from the initial state
(reaching `cTraceFinal`), plus the fast path on a loaded store. -/
theorem c2_witness :
    (cTraceFinal.loads = 1 ∧ cTraceFinal.model = some 0 ∧ cTraceFinal.vec = some 0) ∧
    loadArtifactsOnce envGood storeLoaded
      = ⟨storeLoaded, none, false, false, false, false⟩ := by
  refine c2_exactly_once 0 0 cTraceFinal envGood storeLoaded (by decide) ?_ (by decide) rfl
  refine Relation.ReflTransGen.head (CStep.fastModelNone _ 0 rfl rfl) ?_
  refine Relation.ReflTransGen.head (CStep.acquire _ 0 (by decide) rfl) ?_
  refine Relation.ReflTransGen.head (CStep.innerTrue _ 0 (by decide) (Or.inl rfl)) ?_
  refine Relation.ReflTransGen.head (CStep.stepSetModel _ 0 (by decide)) ?_
  refine Relation.ReflTransGen.head (CStep.stepSetVec _ 0 (by decide)) ?_
  exact Relation.ReflTransGen.single (CStep.stepUnlock _ 0 (by decide))

end FakeNewsApp
